import Mathlib

/-!
Shallow embedding of the updati dependency-update pipeline
(worker pool, update orchestrator, composer/npm plugins, file
fingerprinting, pull-request reconciliation), together with proofs
of the specification claims about it.

External effects (subprocess invocations, filesystem reads, hosting
API calls) are modelled by explicit environment records describing
the outcome of each external step, and by event traces listing the
external calls a run performs.
-/

namespace Updati

/-! ## Data model (internal/github, internal/updater, internal/config) -/

/-- Repository mirrors the Repository struct of internal/github/client.go. -/
structure Repository where
  owner : String := ""
  name : String := ""
  fullName : String := ""
  cloneURL : String := ""
  defaultRef : String := ""
  isLaravel : Bool := false
  hasComposer : Bool := false
  hasNPM : Bool := false
deriving DecidableEq

/-- Config mirrors the fields of internal/config consumed by the core
(the config package itself is out of scope; these are exactly the
fields read by the updater, worker and github client). -/
structure Config where
  githubToken : String := ""
  owner : String := ""
  workers : Nat := 5
  dryRun : Bool := false
  createPR : Bool := true
  baseBranch : String := ""
  prBranch : String := ""
  commitMessage : String := ""
  prTitle : String := ""
  prBody : String := ""
  labels : List String := []
  updateComposer : Bool := true
  updateNPM : Bool := true
deriving DecidableEq

/-- Result mirrors the Result struct of the updater package.  Go zero
values: Success=false, Updated=false, Error=nil, PRNumber=0, PRURL="",
Branch="", ChangedFiles=nil. -/
structure Result where
  repository : Repository := {}
  success : Bool := false
  updated : Bool := false
  error : Option String := none
  prNumber : Nat := 0
  prURL : String := ""
  branch : String := ""
  changedFiles : List String := []
deriving DecidableEq

/-! ## Change fingerprinter (updater hash.go, fileHash)

File contents are byte lists (each entry < 256).  Go's
fmt.Sprintf of a nonnegative length with percent-d is the usual decimal
representation, and percent-x of a byte slice prints two lowercase hex
digits per byte; both are reproduced character by character. -/

/-- Decimal digits (most significant first) of n, as characters; the
fuel argument bounds the recursion depth (fileHash only calls this with
n at least 1, where it agrees with Go's decimal formatting). -/
def decCharsAux : Nat → Nat → List Char
  | 0, _ => []
  | fuel + 1, n =>
    if n = 0 then []
    else decCharsAux fuel (n / 10) ++ [Char.ofNat (48 + n % 10)]

/-- Decimal representation of n (for n at least 1). -/
def decChars (n : Nat) : List Char :=
  decCharsAux n n

/-- Lowercase hex digit character for a value below 16. -/
def hexDigitChar (r : Nat) : Char :=
  if r < 10 then Char.ofNat (48 + r) else Char.ofNat (87 + r)

/-- Two lowercase hex digits of one byte, as printed by Go percent-x. -/
def hexByte (b : Nat) : List Char :=
  [hexDigitChar (b / 16), hexDigitChar (b % 16)]

/-- Hex encoding of a byte list, as printed by Go percent-x. -/
def hexChars : List Nat → List Char
  | [] => []
  | b :: bs => hexByte b ++ hexChars bs

/-- Character content of the fileHash format string:
length, dash, hex of the first min(10,len) bytes, dash, hex of the
last min(10,len) bytes. -/
def fileHashChars (data : List Nat) : List Char :=
  decChars data.length ++ Char.ofNat 45 ::
    (hexChars (data.take (min 10 data.length)) ++ Char.ofNat 45 ::
      hexChars (data.drop (data.length - 10)))

/-- fileHash from hash.go: "empty" sentinel for an empty file, otherwise
length-prefix-suffix sample formatted as a string.  The caller maps a
missing file to a distinct value (the Go zero-value string ""). -/
def fileHash (data : List Nat) : String :=
  if data.length = 0 then "empty" else String.mk (fileHashChars data)

/-- Decimal parse-back used to prove injectivity of decChars. -/
def decVal (cs : List Char) : Nat :=
  cs.foldl (fun a c => 10 * a + (c.toNat - 48)) 0

/-! ## String helpers modelling the Go standard library -/

/-- Whitespace trimming on both ends (strings.TrimSpace). -/
def trimChars (cs : List Char) : List Char :=
  ((cs.dropWhile Char.isWhitespace).reverse.dropWhile Char.isWhitespace).reverse

/-- strings.TrimSpace. -/
def strTrim (s : String) : String :=
  String.mk (trimChars s.data)

/-- strings.Contains: sub occurs as a contiguous substring of s. -/
def containsSub (s sub : String) : Bool :=
  decide (List.IsInfix sub.data s.data)

/-! ## Composer PHP version selection (internal/updater/composer.go) -/

/-- Outcome of reading and JSON-parsing composer.json in the working
copy: unreadable file, unparsable JSON, or the parsed require.php
entry (none when the require map has no "php" key). -/
inductive ManifestRead where
  | readFail
  | parseFail
  | parsed (requirePhp : Option String)
deriving DecidableEq

/-- selectPHPVersion from composer.go: first textual match in the fixed
order 8.4, 8.3, 8.2, 8.5 wins; otherwise the default runtime. -/
def selectPHPVersion (constraint : String) : String :=
  let c := strTrim constraint
  if containsSub c "8.4" then "/usr/bin/php84"
  else if containsSub c "8.3" then "/usr/bin/php83"
  else if containsSub c "8.2" then "/usr/bin/php82"
  else if containsSub c "8.5" then "/usr/bin/php85"
  else "/usr/bin/php"

/-- detectPHPVersion from composer.go: any failure to read or parse the
manifest, and a missing require.php key, fall back to the default
runtime; otherwise the constraint is passed to selectPHPVersion. -/
def detectPHPVersion (m : ManifestRead) : String :=
  match m with
  | .readFail => "/usr/bin/php"
  | .parseFail => "/usr/bin/php"
  | .parsed none => "/usr/bin/php"
  | .parsed (some c) => selectPHPVersion c

/-- Modelled from the spec: "pick the highest declared/available version
satisfying the constraint textually; if no declaration or no match, use
the default runtime on the path."  The versions with a dedicated
executable in the source are 8.2, 8.3, 8.4 and 8.5; this definition
checks them from highest to lowest. -/
def selectPHPVersionSpec (constraint : String) : String :=
  let c := strTrim constraint
  if containsSub c "8.5" then "/usr/bin/php85"
  else if containsSub c "8.4" then "/usr/bin/php84"
  else if containsSub c "8.3" then "/usr/bin/php83"
  else if containsSub c "8.2" then "/usr/bin/php82"
  else "/usr/bin/php"

/-- The fixed version-check order of selectPHPVersion, with the
executable each version maps to. -/
def phpOrder : List (String × String) :=
  [("8.4", "/usr/bin/php84"), ("8.3", "/usr/bin/php83"),
   ("8.2", "/usr/bin/php82"), ("8.5", "/usr/bin/php85")]

/-- First entry of phpOrder occurring textually in the trimmed
constraint, defaulting to the plain php executable. -/
def firstPhpMatch (constraint : String) : String :=
  match phpOrder.find? (fun p => containsSub (strTrim constraint) p.1) with
  | some p => p.2
  | none => "/usr/bin/php"

/-! ## Plugins (internal/updater/npm.go and composer.go)

A plugin run touches the outside world three times: it hashes the
lockfile, runs the ecosystem's update command, and hashes the lockfile
again.  PluginEnv records what each touch observes. -/

/-- Result of reading one file: missing (os.IsNotExist), some other
read error, or the byte contents. -/
inductive FileRead where
  | absent
  | readErr (msg : String)
  | ok (data : List Nat)
deriving DecidableEq

/-- Environment of one plugin Update call: the lockfile contents before
the external command, the command's failure diagnostic (none when it
exits zero), and the lockfile contents after. -/
structure PluginEnv where
  before : FileRead := .absent
  runErr : Option String := none
  after : FileRead := .absent
deriving DecidableEq

/-- Hash actually held in the originalHash variable after the first
fileHash call: the Go zero-value string when the file was missing. -/
def beforeHash : FileRead → String
  | .ok d => fileHash d
  | _ => ""

/-- NPMPlugin.Update from npm.go. -/
def npmUpdate (pe : PluginEnv) : Except String (Bool × List String) :=
  match pe.before with
  | .readErr e => .error ("failed to hash package-lock.json: " ++ e)
  | _ =>
    match pe.runErr with
    | some stderr => .error ("npm update failed: " ++ stderr)
    | none =>
      match pe.after with
      | .absent => .ok (false, [])
      | .readErr e => .error ("failed to hash package-lock.json after update: " ++ e)
      | .ok d =>
        if beforeHash pe.before ≠ fileHash d then .ok (true, ["package-lock.json"])
        else .ok (false, [])

/-- ComposerPlugin.Update from composer.go; the detected PHP executable
only selects the command binary and does not affect the result shape. -/
def composerUpdate (m : ManifestRead) (pe : PluginEnv) : Except String (Bool × List String) :=
  match pe.before with
  | .readErr e => .error ("failed to hash composer.lock: " ++ e)
  | _ =>
    let _phpBin := detectPHPVersion m
    match pe.runErr with
    | some stderr => .error ("composer update failed: " ++ stderr)
    | none =>
      match pe.after with
      | .absent => .ok (false, [])
      | .readErr e => .error ("failed to hash composer.lock after update: " ++ e)
      | .ok d =>
        if beforeHash pe.before ≠ fileHash d then .ok (true, ["composer.lock"])
        else .ok (false, [])

/-! ## Git subprocess layer (updater commitAndPush and helpers) -/

/-- One git invocation inside commitAndPush. -/
inductive GitStep where
  | configEmail
  | configName
  | add
  | status
  | commit
  | push
deriving DecidableEq

/-- Outcomes of the git invocations commitAndPush can make.  Each error
field holds the captured output of a failing invocation (none when it
succeeds); statusOutput is the stdout of git status --porcelain, whose
error is discarded by the source. -/
structure GitEnv where
  configEmailErr : Option String := none
  configNameErr : Option String := none
  addErr : Option String := none
  statusOutput : String := ""
  commitErr : Option String := none
  pushErr : Option String := none
deriving DecidableEq

/-- runGit from the updater: wraps a failing invocation's output in the
message "git (subcommand) failed: ...". -/
def runGitStep (sub : String) (err : Option String) : Except String Unit :=
  match err with
  | some out => .error ("git " ++ sub ++ " failed: " ++ out)
  | none => .ok ()

/-- commitAndPush from the updater: configure identity, stage all,
return early when git status --porcelain is empty after staging, commit
(treating a "nothing to commit" diagnostic as benign), then force-push.
Returns the git invocations performed and the overall outcome. -/
def commitAndPush (g : GitEnv) : List GitStep × Except String Unit :=
  match runGitStep "config" g.configEmailErr with
  | .error e => ([.configEmail], .error e)
  | .ok _ =>
    match runGitStep "config" g.configNameErr with
    | .error e => ([.configEmail, .configName], .error e)
    | .ok _ =>
      match runGitStep "add" g.addErr with
      | .error e => ([.configEmail, .configName, .add], .error e)
      | .ok _ =>
        if (strTrim g.statusOutput).length = 0 then
          ([.configEmail, .configName, .add, .status], .ok ())
        else
          match runGitStep "commit" g.commitErr with
          | .error e =>
            if containsSub e "nothing to commit" then
              ([.configEmail, .configName, .add, .status, .commit], .ok ())
            else
              ([.configEmail, .configName, .add, .status, .commit], .error e)
          | .ok _ =>
            match runGitStep "push" g.pushErr with
            | .error e =>
              ([.configEmail, .configName, .add, .status, .commit, .push], .error e)
            | .ok _ =>
              ([.configEmail, .configName, .add, .status, .commit, .push], .ok ())

/-! ## Update orchestrator (updater Update, runPlugins and helpers) -/

/-- One external call made during an Update invocation. -/
inductive Event where
  | clone
  | branch
  | pluginRun (name : String)
  | git (s : GitStep)
  | pullRequest
  | removeDir (dir : String)
deriving DecidableEq

/-- Environment of one Update invocation: outcome of temp-directory
creation (the created path on success), of the clone and local branch
subprocesses, of each plugin's external touches, of the git layer, and
of the pull-request reconciliation API call (PR number and URL on
success). -/
structure UpdateEnv where
  mkdirTemp : Except String String := .ok "/tmp/updati"
  cloneErr : Option String := none
  branchErr : Option String := none
  manifest : ManifestRead := .readFail
  composer : PluginEnv := {}
  npm : PluginEnv := {}
  git : GitEnv := {}
  createPR : Except String (Nat × String) := .ok (1, "")

/-- One registered plugin as the orchestrator sees it in this run:
its name, its Detect predicate over the repository descriptor, and the
already-determined outcome of its Update call in this environment. -/
structure PluginImpl where
  name : String
  detect : Repository → Bool
  update : Except String (Bool × List String)

/-- The plugin registry in registration order (init registers the
composer plugin, then the npm plugin). -/
def plugins (env : UpdateEnv) : List PluginImpl :=
  [{ name := "composer", detect := fun r => r.hasComposer,
     update := composerUpdate env.manifest env.composer },
   { name := "npm", detect := fun r => r.hasNPM,
     update := npmUpdate env.npm }]

/-- isPluginEnabled from the updater. -/
def isPluginEnabled (cfg : Config) (name : String) : Bool :=
  if name = "composer" then cfg.updateComposer
  else if name = "npm" then cfg.updateNPM
  else true

/-- The runPlugins loop of the updater over a list of plugins, carrying
the anyUpdated flag and the accumulated changed-file list; a plugin
error aborts the loop with the plugin's name prefixed. -/
def runPluginsAux (cfg : Config) (repo : Repository) :
    List PluginImpl → Bool → List String → List Event × Except String (Bool × List String)
  | [], anyUpdated, files => ([], .ok (anyUpdated, files))
  | p :: rest, anyUpdated, files =>
    if isPluginEnabled cfg p.name && p.detect repo then
      match p.update with
      | .error e => ([.pluginRun p.name], .error (p.name ++ ": " ++ e))
      | .ok (upd, cfs) =>
        let anyUpdated' := anyUpdated || upd
        let files' := if upd then files ++ cfs else files
        let tail := runPluginsAux cfg repo rest anyUpdated' files'
        (.pluginRun p.name :: tail.1, tail.2)
    else
      runPluginsAux cfg repo rest anyUpdated files

/-- runPlugins from the updater. -/
def runPlugins (env : UpdateEnv) (cfg : Config) (repo : Repository) :
    List Event × Except String (Bool × List String) :=
  runPluginsAux cfg repo (plugins env) false []

/-- determineTargetBranch from the updater. -/
def determineTargetBranch (cfg : Config) (repo : Repository) : String :=
  if cfg.createPR then cfg.prBranch
  else if cfg.baseBranch ≠ "" then cfg.baseBranch
  else repo.defaultRef

/-- A Result holding only the repository reference, all other fields at
their Go zero values. -/
def emptyResult (repo : Repository) : Result :=
  { repository := repo }

/-- Tail of Update after a successful clone and (in pull-request mode)
branch creation: run the plugins, then handle the no-change, dry-run,
commit-and-push and pull-request cases.  r0 carries the repository and
target branch already recorded on the result; pre lists the external
calls already performed. -/
def updateFromPlugins (env : UpdateEnv) (cfg : Config) (r0 : Result) (pre : List Event) :
    Result × List Event :=
  let pr := runPlugins env cfg r0.repository
  let evs := pre ++ pr.1
  match pr.2 with
  | .error e => ({ r0 with error := some e }, evs)
  | .ok (updated, changedFiles) =>
    let r1 := { r0 with changedFiles := changedFiles }
    if updated = false then
      ({ r1 with success := true, updated := false }, evs)
    else if cfg.dryRun then
      ({ r1 with success := true, updated := true }, evs)
    else
      let g := commitAndPush env.git
      let evs2 := evs ++ g.1.map Event.git
      match g.2 with
      | .error e => ({ r1 with error := some ("failed to commit and push: " ++ e) }, evs2)
      | .ok _ =>
        if cfg.createPR then
          match env.createPR with
          | .error e =>
            ({ r1 with error := some ("failed to create pull request: " ++ e) },
             evs2 ++ [.pullRequest])
          | .ok (num, url) =>
            ({ r1 with success := true, updated := true, prNumber := num, prURL := url },
             evs2 ++ [.pullRequest])
        else
          ({ r1 with success := true, updated := true }, evs2)

/-- Body of Update between temp-directory creation and the deferred
removal: clone, record the target branch, create the local branch in
pull-request mode, then hand over to the plugin stage. -/
def updateBody (env : UpdateEnv) (cfg : Config) (repo : Repository) : Result × List Event :=
  match env.cloneErr with
  | some e =>
    ({ emptyResult repo with error := some ("failed to clone repository: git clone failed: " ++ e) },
     [.clone])
  | none =>
    let tb := determineTargetBranch cfg repo
    let r0 := { emptyResult repo with branch := tb }
    if cfg.createPR then
      match env.branchErr with
      | some e =>
        ({ r0 with error := some ("failed to create branch: git checkout failed: " ++ e) },
         [.clone, .branch])
      | none => updateFromPlugins env cfg r0 [.clone, .branch]
    else
      updateFromPlugins env cfg r0 [.clone]

/-- Updater.Update: create the temp working copy, run the body, and
(via defer) remove the working copy as the final action of every path
on which it was created. -/
def Update (env : UpdateEnv) (cfg : Config) (repo : Repository) : Result × List Event :=
  match env.mkdirTemp with
  | .error e =>
    ({ emptyResult repo with error := some ("failed to create temp directory: " ++ e) }, [])
  | .ok tmpDir =>
    let body := updateBody env cfg repo
    (body.1, body.2 ++ [.removeDir tmpDir])

/-! ## Pull-request reconciliation (internal/github/client.go) -/

/-- The fields of a hosting-side pull request the reconciliation logic
reads or writes. -/
structure PullRequest where
  number : Nat := 0
  title : String := ""
  body : String := ""
  htmlURL : String := ""
deriving DecidableEq

/-- One hosting API call made by CreatePullRequest. -/
inductive PRCall where
  | list
  | edit (number : Nat)
  | create
  | addLabels
deriving DecidableEq

/-- Environment of one CreatePullRequest call: failure diagnostics of
the list, edit and create API calls, and the pull request the create
call returns on success. -/
structure PREnv where
  listErr : Option String := none
  editErr : Option String := none
  createErr : Option String := none
  createdPR : PullRequest := {}
deriving DecidableEq

/-- Client.CreatePullRequest from client.go: list the open pull
requests for the exact owner:head/base pair; when one exists, edit its
title and body in place; otherwise create a new one and best-effort
attach labels (label failure is only a warning and never affects the
returned value).  openPRs is what the hosting API reports as the open
pull requests for the pair. -/
def createPullRequest (env : PREnv) (openPRs : List PullRequest)
    (title body : String) (labels : List String) :
    List PRCall × Except String PullRequest :=
  match env.listErr with
  | some e => ([.list], .error ("failed to list existing PRs: " ++ e))
  | none =>
    match openPRs with
    | pr :: _ =>
      match env.editErr with
      | some e => ([.list, .edit pr.number], .error ("failed to update existing PR: " ++ e))
      | none => ([.list, .edit pr.number], .ok { pr with title := title, body := body })
    | [] =>
      match env.createErr with
      | some e => ([.list, .create], .error ("failed to create pull request: " ++ e))
      | none =>
        if labels.length > 0 then ([.list, .create, .addLabels], .ok env.createdPR)
        else ([.list, .create], .ok env.createdPR)

/-- Open pull requests for the head/base pair after one successful
CreatePullRequest run: editing keeps the existing set (with the first
entry retitled), creating adds exactly the one new pull request. -/
def prStateAfter (env : PREnv) (openPRs : List PullRequest) (title body : String) :
    List PullRequest :=
  match openPRs with
  | pr :: rest => { pr with title := title, body := body } :: rest
  | [] => [env.createdPR]

/-! ## Worker pool (internal/worker) -/

/-- Per-repository environment a worker observes: the outcome of the
dependency-detection call (the capability flags it sets on the
repository, or its error) and the Update environment for the
repository. -/
structure RepoEnv where
  detectErr : Option String := none
  hasComposer : Bool := false
  hasNPM : Bool := false
  update : UpdateEnv := {}

/-- One iteration of the worker loop body (no cancellation): detect
dependency managers, skip repositories with neither manifest as a
successful non-update, otherwise run the orchestrator; exactly one
Result is produced on every path. -/
def workerProcess (cfg : Config) (renv : RepoEnv) (repo : Repository) : Result :=
  match renv.detectErr with
  | some e => { emptyResult repo with error := some ("failed to detect dependencies: " ++ e) }
  | none =>
    let repo' := { repo with hasComposer := renv.hasComposer, hasNPM := renv.hasNPM }
    if !repo'.hasComposer && !repo'.hasNPM then
      { emptyResult repo' with success := true, updated := false }
    else
      (Update renv.update cfg repo').1

/-- ProcessResult mirrors the ProcessResult struct of the worker
package. -/
structure ProcessResult where
  total : Nat := 0
  successful : Nat := 0
  updated : Nat := 0
  failed : Nat := 0
  skipped : Nat := 0
  results : List Result := []
deriving DecidableEq

/-- The result-collection step of Pool.Process: append the arrived
Result and bump the matching counters. -/
def collectOne (acc : ProcessResult) (res : Result) : ProcessResult :=
  let acc1 := { acc with results := acc.results ++ [res] }
  match res.error with
  | some _ => { acc1 with failed := acc1.failed + 1 }
  | none =>
    if res.updated then
      { acc1 with updated := acc1.updated + 1, successful := acc1.successful + 1 }
    else
      { acc1 with skipped := acc1.skipped + 1, successful := acc1.successful + 1 }

/-- Pool.Process after full drain: Total is fixed to the input length
up front, and the Results received on the result channel (arrivals, in
completion order) are folded through the collection loop.  With no
cancellation every input repository contributes exactly one arrival,
which the worker-pool theorems state as a permutation hypothesis. -/
def Process (repos : List Repository) (arrivals : List Result) : ProcessResult :=
  arrivals.foldl collectOne { total := repos.length }

/-! ## Concrete fixtures used by witnesses and counterexamples -/

/-- A repository carrying only a package.json. -/
def repoNpm : Repository := { hasNPM := true }

/-- Direct-push configuration. -/
def cfgDirect : Config := { createPR := false }

/-- Dry-run configuration in pull-request mode (the default mode with
the dry-run flag set). -/
def cfgDry : Config := { createPR := true, dryRun := true }

/-- Plugin environment in which the update command succeeds and the
lockfile appears with new contents. -/
def peChanged : PluginEnv := { before := .absent, after := .ok [1] }

/-- Plugin environment in which the update command exits nonzero. -/
def peFail : PluginEnv := { before := .absent, runErr := some "boom" }

/-- Update environment where the npm plugin reports a change and every
other external step succeeds. -/
def envNpmChanged : UpdateEnv := { npm := peChanged }

/-- Update environment where the npm update command fails. -/
def envNpmFail : UpdateEnv := { npm := peFail }

/-- An existing open pull request. -/
def prOne : PullRequest := { number := 7, title := "t", body := "b" }

end Updati

namespace Updati

/-! # Theorems -/

/-! ## C7: composer PHP version selection -/

/-- C7 counterexample: for the constraint "8.4 || 8.5" both 8.4 and 8.5
occur textually and an 8.5 executable exists (the code maps a bare
"8.5" constraint to it), yet detectPHPVersion picks php84, not the
highest matching version php85 that the claim requires. -/
theorem claim_C7_counterexample :
    detectPHPVersion (.parsed (some "8.4 || 8.5")) = "/usr/bin/php84" ∧
    selectPHPVersion "8.5" = "/usr/bin/php85" ∧
    selectPHPVersionSpec "8.4 || 8.5" = "/usr/bin/php85" ∧
    detectPHPVersion (.parsed (some "8.4 || 8.5")) ≠ selectPHPVersionSpec "8.4 || 8.5" := by
  refine ⟨rfl, rfl, rfl, ?_⟩
  decide

/-- C7 amended: the composer plugin selects the PHP executable of the
first version occurring textually in the trimmed require.php
constraint, checked in the fixed order 8.4, 8.3, 8.2, 8.5 (so 8.4 wins
over a simultaneously occurring 8.5); with an unreadable or unparsable
composer.json, or no php declaration, or no textual match, it uses the
default /usr/bin/php rather than failing the update. -/
theorem claim_C7 :
    ∀ m : ManifestRead,
      detectPHPVersion m =
        match m with
        | .parsed (some c) => firstPhpMatch c
        | _ => "/usr/bin/php" := by
  intro m
  cases m with
  | readFail => rfl
  | parseFail => rfl
  | parsed o =>
    cases o with
    | none => rfl
    | some c =>
      show selectPHPVersion c = firstPhpMatch c
      simp only [selectPHPVersion, firstPhpMatch, phpOrder, List.find?]
      rcases h84 : containsSub (strTrim c) "8.4" <;>
        rcases h83 : containsSub (strTrim c) "8.3" <;>
          rcases h82 : containsSub (strTrim c) "8.2" <;>
            rcases h85 : containsSub (strTrim c) "8.5" <;>
              simp [h84, h83, h82, h85]

/-! ## C8: working copy removed on every exit path -/

/-- C8: whenever the temporary working-copy directory was created, its
recursive removal (the deferred os.RemoveAll) is the final external
action of Update, on every exit path. -/
theorem claim_C8 (env : UpdateEnv) (cfg : Config) (repo : Repository) (tmpDir : String)
    (h : env.mkdirTemp = Except.ok tmpDir) :
    Event.removeDir tmpDir ∈ (Update env cfg repo).2 ∧
    (Update env cfg repo).2.getLast? = some (Event.removeDir tmpDir) := by
  have hU : (Update env cfg repo).2 =
      (updateBody env cfg repo).2 ++ [Event.removeDir tmpDir] := by
    unfold Update
    rw [h]
  rw [hU]
  refine ⟨List.mem_append_right _ (List.mem_singleton_self _), ?_⟩
  rw [List.getLast?_append_cons]
  rfl

/-- C8 witness: a concrete run in which the working copy is created and
its removal is the last external action. -/
theorem claim_C8_witness :
    Event.removeDir "/tmp/updati" ∈ (Update envNpmChanged cfgDirect repoNpm).2 ∧
    (Update envNpmChanged cfgDirect repoNpm).2.getLast? = some (Event.removeDir "/tmp/updati") :=
  claim_C8 envNpmChanged cfgDirect repoNpm "/tmp/updati" rfl

/-! ## C10: plugin changed flag and changed-file list agree -/

/-- An errorless npm plugin run yields exactly one of the two permitted
result shapes. -/
theorem npmUpdate_ok_shape (pe : PluginEnv) (b : Bool) (fs : List String)
    (h : npmUpdate pe = .ok (b, fs)) :
    (b = true ∧ fs = ["package-lock.json"]) ∨ (b = false ∧ fs = []) := by
  unfold npmUpdate at h
  split at h
  · exact Except.noConfusion h
  · split at h
    · exact Except.noConfusion h
    · split at h
      · simp only [Except.ok.injEq, Prod.mk.injEq] at h
        exact Or.inr ⟨h.1.symm, h.2.symm⟩
      · exact Except.noConfusion h
      · split at h <;> simp only [Except.ok.injEq, Prod.mk.injEq] at h
        · exact Or.inl ⟨h.1.symm, h.2.symm⟩
        · exact Or.inr ⟨h.1.symm, h.2.symm⟩

/-- An errorless composer plugin run yields exactly one of the two
permitted result shapes. -/
theorem composerUpdate_ok_shape (m : ManifestRead) (pe : PluginEnv) (b : Bool)
    (fs : List String) (h : composerUpdate m pe = .ok (b, fs)) :
    (b = true ∧ fs = ["composer.lock"]) ∨ (b = false ∧ fs = []) := by
  unfold composerUpdate at h
  split at h
  · exact Except.noConfusion h
  · split at h
    · exact Except.noConfusion h
    · split at h
      · simp only [Except.ok.injEq, Prod.mk.injEq] at h
        exact Or.inr ⟨h.1.symm, h.2.symm⟩
      · exact Except.noConfusion h
      · split at h <;> simp only [Except.ok.injEq, Prod.mk.injEq] at h
        · exact Or.inl ⟨h.1.symm, h.2.symm⟩
        · exact Or.inr ⟨h.1.symm, h.2.symm⟩

/-- C10: every errorless plugin Update call reports either a change
confined to exactly its own lockfile or no change with an empty file
list; no other path is ever reported. -/
theorem claim_C10 :
    ∀ (m : ManifestRead) (pe : PluginEnv) (b : Bool) (fs : List String),
      (npmUpdate pe = .ok (b, fs) →
        ((b = true ↔ fs = ["package-lock.json"]) ∧ (b = false ↔ fs = []))) ∧
      (composerUpdate m pe = .ok (b, fs) →
        ((b = true ↔ fs = ["composer.lock"]) ∧ (b = false ↔ fs = []))) := by
  intro m pe b fs
  constructor
  · intro h
    rcases npmUpdate_ok_shape pe b fs h with ⟨hb, hf⟩ | ⟨hb, hf⟩ <;> subst hb <;> subst hf <;>
      simp
  · intro h
    rcases composerUpdate_ok_shape m pe b fs h with ⟨hb, hf⟩ | ⟨hb, hf⟩ <;> subst hb <;>
      subst hf <;> simp

/-- C10 witness: a concrete errorless npm run that changed the lockfile
reports exactly the lockfile, and the two flag equivalences hold. -/
theorem claim_C10_witness :
    ((true = true ↔ (["package-lock.json"] : List String) = ["package-lock.json"]) ∧
     ((true : Bool) = false ↔ (["package-lock.json"] : List String) = [])) :=
  (claim_C10 .readFail peChanged true ["package-lock.json"]).1 rfl

/-! ## C1: worker pool aggregate invariants -/

/-- The collection fold never touches the Total field. -/
theorem foldl_collectOne_total (rs : List Result) (acc : ProcessResult) :
    (rs.foldl collectOne acc).total = acc.total := by
  induction rs generalizing acc with
  | nil => rfl
  | cons r rs ih =>
    rw [List.foldl_cons, ih]
    unfold collectOne
    split <;> try rfl
    split <;> rfl

/-- The collection fold appends every arrival, in arrival order. -/
theorem foldl_collectOne_results (rs : List Result) (acc : ProcessResult) :
    (rs.foldl collectOne acc).results = acc.results ++ rs := by
  induction rs generalizing acc with
  | nil => simp
  | cons r rs ih =>
    rw [List.foldl_cons, ih]
    have hone : (collectOne acc r).results = acc.results ++ [r] := by
      unfold collectOne
      split <;> try rfl
      split <;> rfl
    rw [hone, List.append_assoc, List.singleton_append]

/-- Each collected arrival bumps exactly one of the successful and
failed counters. -/
theorem foldl_collectOne_succ_failed (rs : List Result) (acc : ProcessResult) :
    (rs.foldl collectOne acc).successful + (rs.foldl collectOne acc).failed =
      acc.successful + acc.failed + rs.length := by
  induction rs generalizing acc with
  | nil => simp
  | cons r rs ih =>
    rw [List.foldl_cons, ih]
    have hone : (collectOne acc r).successful + (collectOne acc r).failed =
        acc.successful + acc.failed + 1 := by
      unfold collectOne
      split
      · rfl
      · split <;> simp <;> omega
    rw [hone, List.length_cons]
    omega

/-- Each successful arrival bumps exactly one of the updated and
skipped counters. -/
theorem foldl_collectOne_upd_skipped (rs : List Result) (acc : ProcessResult) :
    (rs.foldl collectOne acc).updated + (rs.foldl collectOne acc).skipped +
        acc.successful =
      (rs.foldl collectOne acc).successful + acc.updated + acc.skipped := by
  induction rs generalizing acc with
  | nil =>
    simp only [List.foldl_nil]
    omega
  | cons r rs ih =>
    rw [List.foldl_cons]
    have hone :
        (collectOne acc r).updated + (collectOne acc r).skipped + acc.successful + 1 =
          (collectOne acc r).successful + acc.updated + acc.skipped + 1 ∨
        ((collectOne acc r).updated + (collectOne acc r).skipped = acc.updated + acc.skipped ∧
          (collectOne acc r).successful = acc.successful) := by
      unfold collectOne
      split
      · exact Or.inr ⟨rfl, rfl⟩
      · split <;> exact Or.inl (by simp; omega)
    have h2 := ih (collectOne acc r)
    rcases hone with hone | ⟨h3, h4⟩ <;> omega

/-- C1: with no cancellation the pool fully drains, so the arrivals on
the result channel are exactly one worker-produced Result per input
repository (in some completion order); the aggregate then has
Total equal to the input length, Results a permutation of the
per-repository Outcomes, Successful plus Failed equal to Total, and
Updated plus Skipped equal to Successful. -/
theorem claim_C1 (cfg : Config) (envOf : Repository → RepoEnv) (repos : List Repository)
    (arrivals : List Result)
    (hperm : arrivals.Perm (repos.map fun r => workerProcess cfg (envOf r) r)) :
    (Process repos arrivals).total = repos.length ∧
    (Process repos arrivals).results.Perm
      (repos.map fun r => workerProcess cfg (envOf r) r) ∧
    (Process repos arrivals).successful + (Process repos arrivals).failed =
      (Process repos arrivals).total ∧
    (Process repos arrivals).updated + (Process repos arrivals).skipped =
      (Process repos arrivals).successful := by
  unfold Process
  refine ⟨foldl_collectOne_total arrivals _, ?_, ?_, ?_⟩
  · rw [foldl_collectOne_results arrivals _]
    simpa using hperm
  · rw [foldl_collectOne_total arrivals _, foldl_collectOne_succ_failed arrivals _]
    have := hperm.length_eq
    simp only [List.length_map] at this
    simpa using this
  · have := foldl_collectOne_upd_skipped arrivals { total := repos.length }
    simpa using this

/-- C1 witness: a single-repository run with the arrival being that
repository's worker outcome. -/
theorem claim_C1_witness :
    (Process [{}] (List.map (fun r => workerProcess {} {} r) [{}])).total =
      List.length ([{}] : List Repository) ∧
    (Process [{}] (List.map (fun r => workerProcess {} {} r) [{}])).results.Perm
      (List.map (fun r => workerProcess {} {} r) [{}]) ∧
    (Process [{}] (List.map (fun r => workerProcess {} {} r) [{}])).successful +
        (Process [{}] (List.map (fun r => workerProcess {} {} r) [{}])).failed =
      (Process [{}] (List.map (fun r => workerProcess {} {} r) [{}])).total ∧
    (Process [{}] (List.map (fun r => workerProcess {} {} r) [{}])).updated +
        (Process [{}] (List.map (fun r => workerProcess {} {} r) [{}])).skipped =
      (Process [{}] (List.map (fun r => workerProcess {} {} r) [{}])).successful :=
  claim_C1 {} (fun _ => {}) [{}] (List.map (fun r => workerProcess {} {} r) [{}])
    (List.Perm.refl _)

/-! ## C9: success/error invariant of every Outcome -/

/-- Invariant of the plugin stage onward: starting from a base result
with zero-valued success, error and pull-request fields, the produced
result has success exactly on a nil error, and failed results keep the
pull-request fields at their zero values. -/
theorem updateFromPlugins_inv (env : UpdateEnv) (cfg : Config) (r0 : Result)
    (pre : List Event) (hs : r0.success = false) (he : r0.error = none)
    (hp : r0.prNumber = 0) (hu : r0.prURL = "") :
    ((updateFromPlugins env cfg r0 pre).1.success = true ↔
      (updateFromPlugins env cfg r0 pre).1.error = none) ∧
    ((updateFromPlugins env cfg r0 pre).1.error = none ∨
      ((updateFromPlugins env cfg r0 pre).1.prNumber = 0 ∧
       (updateFromPlugins env cfg r0 pre).1.prURL = "")) := by
  rcases hrp : (runPlugins env cfg r0.repository).2 with e | ⟨u, fs⟩
  · simp [updateFromPlugins, hrp, hs, hp, hu]
  · rcases u with _ | _
    · simp [updateFromPlugins, hrp, he, hp, hu]
    · rcases hd : cfg.dryRun with _ | _
      · rcases hg : (commitAndPush env.git).2 with ge | _
        · simp [updateFromPlugins, hrp, hd, hg, hs, hp, hu]
        · rcases hc : cfg.createPR with _ | _
          · simp [updateFromPlugins, hrp, hd, hg, hc, he, hp, hu]
          · rcases henv : env.createPR with pe | ⟨num, url⟩
            · simp [updateFromPlugins, hrp, hd, hg, hc, henv, hs, hp, hu]
            · simp [updateFromPlugins, hrp, hd, hg, hc, henv, he]
      · simp [updateFromPlugins, hrp, hd, he, hp, hu]

/-- The success/error and failed-pull-request-field invariant holds for
every Update outcome. -/
theorem update_inv (env : UpdateEnv) (cfg : Config) (repo : Repository) :
    ((Update env cfg repo).1.success = true ↔ (Update env cfg repo).1.error = none) ∧
    ((Update env cfg repo).1.error = none ∨
      ((Update env cfg repo).1.prNumber = 0 ∧ (Update env cfg repo).1.prURL = "")) := by
  rcases hmk : env.mkdirTemp with e | tmpDir
  · simp [Update, hmk, emptyResult]
  · have hbody : (Update env cfg repo).1 = (updateBody env cfg repo).1 := by
      simp [Update, hmk]
    rw [hbody]
    rcases hcl : env.cloneErr with _ | e
    · rcases hc : cfg.createPR with _ | _
      · have h1 : (updateBody env cfg repo).1 =
            (updateFromPlugins env cfg
              { emptyResult repo with branch := determineTargetBranch cfg repo }
              [.clone]).1 := by
          simp [updateBody, hcl, hc]
        rw [h1]
        exact updateFromPlugins_inv _ _ _ _ rfl rfl rfl rfl
      · rcases hbr : env.branchErr with _ | e
        · have h1 : (updateBody env cfg repo).1 =
              (updateFromPlugins env cfg
                { emptyResult repo with branch := determineTargetBranch cfg repo }
                [.clone, .branch]).1 := by
            simp [updateBody, hcl, hc, hbr]
          rw [h1]
          exact updateFromPlugins_inv _ _ _ _ rfl rfl rfl rfl
        · simp [updateBody, hcl, hc, hbr, emptyResult]
    · simp [updateBody, hcl, emptyResult]

/-- The success/error and failed-pull-request-field invariant holds for
every worker-body outcome. -/
theorem workerProcess_inv (cfg : Config) (renv : RepoEnv) (repo : Repository) :
    ((workerProcess cfg renv repo).success = true ↔
      (workerProcess cfg renv repo).error = none) ∧
    ((workerProcess cfg renv repo).error = none ∨
      ((workerProcess cfg renv repo).prNumber = 0 ∧
       (workerProcess cfg renv repo).prURL = "")) := by
  rcases hde : renv.detectErr with _ | e
  · rcases hc : renv.hasComposer <;> rcases hn : renv.hasNPM
    · simp [workerProcess, hde, hc, hn, emptyResult]
    all_goals
      have hW := update_inv renv.update cfg
        { repo with hasComposer := renv.hasComposer, hasNPM := renv.hasNPM }
      rw [hc, hn] at hW
      simpa [workerProcess, hde, hc, hn] using hW
  · simp [workerProcess, hde, emptyResult]

/-- C9: every Outcome produced by the orchestrator or by the worker
body satisfies: Success holds exactly when Error is nil, and a failed
Outcome keeps PRNumber and PRURL at their zero values. -/
theorem claim_C9 :
    ∀ (cfg : Config) (env : UpdateEnv) (repo : Repository) (renv : RepoEnv),
      ((Update env cfg repo).1.success = true ↔ (Update env cfg repo).1.error = none) ∧
      ((Update env cfg repo).1.error = none ∨
        ((Update env cfg repo).1.prNumber = 0 ∧ (Update env cfg repo).1.prURL = "")) ∧
      ((workerProcess cfg renv repo).success = true ↔
        (workerProcess cfg renv repo).error = none) ∧
      ((workerProcess cfg renv repo).error = none ∨
        ((workerProcess cfg renv repo).prNumber = 0 ∧
         (workerProcess cfg renv repo).prURL = "")) := by
  intro cfg env repo renv
  have hU := update_inv env cfg repo
  have hW := workerProcess_inv cfg renv repo
  exact ⟨hU.1, hU.2, hW.1, hW.2⟩

/-! ## C3: failing update command fails the repository without remote calls -/

/-- When the npm update command itself runs and exits nonzero (the
lockfile was hashable beforehand), the plugin returns an error. -/
theorem npmUpdate_cmd_fail (pe : PluginEnv) (hb : ∀ m, pe.before ≠ .readErr m)
    (hr : pe.runErr ≠ none) : ∃ e, npmUpdate pe = .error e := by
  rcases hbe : pe.before with _ | m | d
  · rcases hre : pe.runErr with _ | s
    · exact absurd hre hr
    · exact ⟨"npm update failed: " ++ s, by simp [npmUpdate, hbe, hre]⟩
  · exact absurd hbe (hb m)
  · rcases hre : pe.runErr with _ | s
    · exact absurd hre hr
    · exact ⟨"npm update failed: " ++ s, by simp [npmUpdate, hbe, hre]⟩

/-- When the composer update command itself runs and exits nonzero, the
plugin returns an error. -/
theorem composerUpdate_cmd_fail (m : ManifestRead) (pe : PluginEnv)
    (hb : ∀ s, pe.before ≠ .readErr s) (hr : pe.runErr ≠ none) :
    ∃ e, composerUpdate m pe = .error e := by
  rcases hbe : pe.before with _ | s | d
  · rcases hre : pe.runErr with _ | s
    · exact absurd hre hr
    · exact ⟨"composer update failed: " ++ s, by simp [composerUpdate, hbe, hre]⟩
  · exact absurd hbe (hb s)
  · rcases hre : pe.runErr with _ | s
    · exact absurd hre hr
    · exact ⟨"composer update failed: " ++ s, by simp [composerUpdate, hbe, hre]⟩

/-- The plugin loop only ever records plugin-invocation events. -/
theorem runPluginsAux_events (cfg : Config) (repo : Repository) :
    ∀ (ps : List PluginImpl) (au : Bool) (fi : List String) (ev : Event),
      ev ∈ (runPluginsAux cfg repo ps au fi).1 → ∃ n, ev = Event.pluginRun n := by
  intro ps
  induction ps with
  | nil => intro au fi ev h; exact absurd h (by simp [runPluginsAux])
  | cons p rest ih =>
    intro au fi ev h
    rw [runPluginsAux] at h
    split at h
    · rcases hup : p.update with e | ⟨upd, cfs⟩ <;> rw [hup] at h
      · rcases List.mem_singleton.mp h with rfl
        exact ⟨p.name, rfl⟩
      · rcases List.mem_cons.mp h with rfl | h2
        · exact ⟨p.name, rfl⟩
        · exact ih _ _ ev h2
    · exact ih _ _ ev h

/-- The plugin stage only ever records plugin-invocation events. -/
theorem runPlugins_events (env : UpdateEnv) (cfg : Config) (repo : Repository)
    (ev : Event) (h : ev ∈ (runPlugins env cfg repo).1) : ∃ n, ev = Event.pluginRun n :=
  runPluginsAux_events cfg repo (plugins env) false [] ev h

/-- When some enabled, applicable plugin's update command exits
nonzero, the plugin stage as a whole returns an error. -/
theorem runPlugins_fail (env : UpdateEnv) (cfg : Config) (repo : Repository)
    (hfail :
      (cfg.updateComposer = true ∧ repo.hasComposer = true ∧
        (∀ m, env.composer.before ≠ .readErr m) ∧ env.composer.runErr ≠ none) ∨
      (cfg.updateNPM = true ∧ repo.hasNPM = true ∧
        (∀ m, env.npm.before ≠ .readErr m) ∧ env.npm.runErr ≠ none)) :
    ∃ e, (runPlugins env cfg repo).2 = .error e := by
  rcases hfail with ⟨hen, hdet, hb, hr⟩ | ⟨hen, hdet, hb, hr⟩
  · obtain ⟨e, hupd⟩ := composerUpdate_cmd_fail env.manifest env.composer hb hr
    exact ⟨"composer" ++ ": " ++ e,
      by simp [runPlugins, plugins, runPluginsAux, isPluginEnabled, hen, hdet, hupd]⟩
  · obtain ⟨e, hupd⟩ := npmUpdate_cmd_fail env.npm hb hr
    rcases hcdet : repo.hasComposer with _ | _
    · exact ⟨"npm" ++ ": " ++ e,
        by simp [runPlugins, plugins, runPluginsAux, isPluginEnabled, hen, hdet, hcdet, hupd]⟩
    · rcases hcen : cfg.updateComposer with _ | _
      · exact ⟨"npm" ++ ": " ++ e,
          by simp [runPlugins, plugins, runPluginsAux, isPluginEnabled, hen, hdet, hcdet,
            hcen, hupd]⟩
      · rcases hcu : composerUpdate env.manifest env.composer with ce | ⟨cu, cfs⟩
        · exact ⟨"composer" ++ ": " ++ ce,
            by simp [runPlugins, plugins, runPluginsAux, isPluginEnabled, hcen, hcdet, hcu]⟩
        · exact ⟨"npm" ++ ": " ++ e,
            by simp [runPlugins, plugins, runPluginsAux, isPluginEnabled, hen, hdet, hcdet,
              hcen, hcu, hupd]⟩

/-- updateBody reduces to the plugin stage when clone and (in
pull-request mode) branch creation succeed. -/
theorem updateBody_eq (env : UpdateEnv) (cfg : Config) (repo : Repository)
    (hclone : env.cloneErr = none)
    (hbranch : cfg.createPR = true → env.branchErr = none) :
    updateBody env cfg repo =
      updateFromPlugins env cfg
        { emptyResult repo with branch := determineTargetBranch cfg repo }
        (if cfg.createPR then [Event.clone, Event.branch] else [Event.clone]) := by
  rcases hc : cfg.createPR with _ | _
  · simp [updateBody, hclone, hc]
  · simp [updateBody, hclone, hc, hbranch hc]

/-- A plugin-stage error aborts the repository with that error and
records no further external call. -/
theorem updateFromPlugins_err (env : UpdateEnv) (cfg : Config) (r0 : Result)
    (pre : List Event) (e : String)
    (h : (runPlugins env cfg r0.repository).2 = .error e) :
    updateFromPlugins env cfg r0 pre =
      ({ r0 with error := some e }, pre ++ (runPlugins env cfg r0.repository).1) := by
  simp [updateFromPlugins, h]

/-- C3: whenever an enabled, applicable plugin's external update
command exits nonzero, Update returns a failed Outcome (non-nil error,
Success false) and neither the git commit/push layer nor the
pull-request API is ever invoked for that repository. -/
theorem claim_C3 (env : UpdateEnv) (cfg : Config) (repo : Repository) (tmpDir : String)
    (hmk : env.mkdirTemp = Except.ok tmpDir)
    (hclone : env.cloneErr = none)
    (hbranch : cfg.createPR = true → env.branchErr = none)
    (hfail :
      (cfg.updateComposer = true ∧ repo.hasComposer = true ∧
        (∀ m, env.composer.before ≠ .readErr m) ∧ env.composer.runErr ≠ none) ∨
      (cfg.updateNPM = true ∧ repo.hasNPM = true ∧
        (∀ m, env.npm.before ≠ .readErr m) ∧ env.npm.runErr ≠ none)) :
    (Update env cfg repo).1.error ≠ none ∧
    (Update env cfg repo).1.success = false ∧
    (∀ s, Event.git s ∉ (Update env cfg repo).2) ∧
    Event.pullRequest ∉ (Update env cfg repo).2 := by
  obtain ⟨e, herr⟩ := runPlugins_fail env cfg repo hfail
  have hupd : Update env cfg repo =
      ((updateBody env cfg repo).1, (updateBody env cfg repo).2 ++ [Event.removeDir tmpDir]) := by
    simp [Update, hmk]
  rw [hupd, updateBody_eq env cfg repo hclone hbranch,
    updateFromPlugins_err env cfg _ _ e herr]
  refine ⟨by simp, by simp [emptyResult], ?_, ?_⟩
  · intro s hs
    simp only [List.mem_append] at hs
    rcases hs with (hs | hs) | hs
    · rcases hc : cfg.createPR <;> rw [hc] at hs <;> simp at hs
    · obtain ⟨n, hn⟩ := runPlugins_events env cfg _ _ hs
      exact Event.noConfusion hn
    · simp at hs
  · intro hs
    simp only [List.mem_append] at hs
    rcases hs with (hs | hs) | hs
    · rcases hc : cfg.createPR <;> rw [hc] at hs <;> simp at hs
    · obtain ⟨n, hn⟩ := runPlugins_events env cfg _ _ hs
      exact Event.noConfusion hn
    · simp at hs

/-- C3 witness: a concrete repository whose npm update command fails is
reported failed with no git or pull-request call. -/
theorem claim_C3_witness :
    (Update envNpmFail cfgDirect repoNpm).1.error ≠ none ∧
    (Update envNpmFail cfgDirect repoNpm).1.success = false ∧
    Event.git GitStep.commit ∉ (Update envNpmFail cfgDirect repoNpm).2 ∧
    Event.git GitStep.push ∉ (Update envNpmFail cfgDirect repoNpm).2 ∧
    Event.pullRequest ∉ (Update envNpmFail cfgDirect repoNpm).2 := by
  have h := claim_C3 envNpmFail cfgDirect repoNpm "/tmp/updati" rfl rfl
    (by intro hcp; exact absurd hcp (by decide))
    (Or.inr ⟨rfl, rfl, by intro m h; exact FileRead.noConfusion h, by simp [envNpmFail, peFail]⟩)
  exact ⟨h.1, h.2.1, h.2.2.1 GitStep.commit, h.2.2.1 GitStep.push, h.2.2.2⟩

/-! ## C4: benign "nothing to commit" no-op -/

/-- When identity configuration and staging succeed and git status
reports no changes after staging, commitAndPush returns without error,
having invoked neither commit nor push. -/
theorem commitAndPush_noop (g : GitEnv) (h1 : g.configEmailErr = none)
    (h2 : g.configNameErr = none) (h3 : g.addErr = none)
    (h4 : (strTrim g.statusOutput).length = 0) :
    commitAndPush g = ([.configEmail, .configName, .add, .status], Except.ok ()) := by
  simp [commitAndPush, runGitStep, h1, h2, h3, h4]

/-- Reduction of the plugin stage onward on the direct-push commit path
with a change and a clean commit-and-push. -/
theorem updateFromPlugins_push (env : UpdateEnv) (cfg : Config) (r0 : Result)
    (pre : List Event) (fs : List String)
    (hplug : (runPlugins env cfg r0.repository).2 = Except.ok (true, fs))
    (hdry : cfg.dryRun = false)
    (hg : (commitAndPush env.git).2 = Except.ok ())
    (hc : cfg.createPR = false) :
    updateFromPlugins env cfg r0 pre =
      ({ r0 with changedFiles := fs, success := true, updated := true },
       (pre ++ (runPlugins env cfg r0.repository).1) ++
         (commitAndPush env.git).1.map Event.git) := by
  simp [updateFromPlugins, hplug, hdry, hg, hc]

/-- Reduction of the plugin stage onward on the pull-request commit
path with a change, a clean commit-and-push and a successful
pull-request reconciliation. -/
theorem updateFromPlugins_pr (env : UpdateEnv) (cfg : Config) (r0 : Result)
    (pre : List Event) (fs : List String) (num : Nat) (url : String)
    (hplug : (runPlugins env cfg r0.repository).2 = Except.ok (true, fs))
    (hdry : cfg.dryRun = false)
    (hg : (commitAndPush env.git).2 = Except.ok ())
    (hc : cfg.createPR = true)
    (hpc : env.createPR = Except.ok (num, url)) :
    updateFromPlugins env cfg r0 pre =
      ({ r0 with
          changedFiles := fs
          success := true
          updated := true
          prNumber := num
          prURL := url },
       ((pre ++ (runPlugins env cfg r0.repository).1) ++
         (commitAndPush env.git).1.map Event.git) ++ [Event.pullRequest]) := by
  simp [updateFromPlugins, hplug, hdry, hg, hc, hpc]

/-- Reduction of the plugin stage onward in dry-run mode with a
change. -/
theorem updateFromPlugins_dry (env : UpdateEnv) (cfg : Config) (r0 : Result)
    (pre : List Event) (fs : List String)
    (hplug : (runPlugins env cfg r0.repository).2 = Except.ok (true, fs))
    (hdry : cfg.dryRun = true) :
    updateFromPlugins env cfg r0 pre =
      ({ r0 with changedFiles := fs, success := true, updated := true },
       pre ++ (runPlugins env cfg r0.repository).1) := by
  simp [updateFromPlugins, hplug, hdry]

/-- C4 counterexample: a run in which plugins detected a change yet
staging produced nothing to commit ends as a success whose Outcome has
changed (Updated) equal to true, not false as the claim states. -/
theorem claim_C4_counterexample :
    (strTrim envNpmChanged.git.statusOutput).length = 0 ∧
    (commitAndPush envNpmChanged.git).2 = Except.ok () ∧
    (Update envNpmChanged cfgDirect repoNpm).1.error = none ∧
    (Update envNpmChanged cfgDirect repoNpm).1.success = true ∧
    (Update envNpmChanged cfgDirect repoNpm).1.updated = true :=
  ⟨rfl, rfl, rfl, rfl, rfl⟩

/-- C4 amended: when staging produces nothing to commit, commit-and-push
completes without error (invoking neither commit nor push) and the
Outcome is a success, not an error — but its changed flag keeps the
plugin-reported value true rather than the claimed false. -/
theorem claim_C4 (env : UpdateEnv) (cfg : Config) (repo : Repository) (tmpDir : String)
    (fs : List String)
    (hmk : env.mkdirTemp = Except.ok tmpDir)
    (hclone : env.cloneErr = none)
    (hbranch : cfg.createPR = true → env.branchErr = none)
    (hplug : (runPlugins env cfg repo).2 = Except.ok (true, fs))
    (hdry : cfg.dryRun = false)
    (h1 : env.git.configEmailErr = none) (h2 : env.git.configNameErr = none)
    (h3 : env.git.addErr = none) (h4 : (strTrim env.git.statusOutput).length = 0)
    (hpr : cfg.createPR = true → ∀ e, env.createPR ≠ Except.error e) :
    (commitAndPush env.git).2 = Except.ok () ∧
    (Update env cfg repo).1.success = true ∧
    (Update env cfg repo).1.error = none ∧
    (Update env cfg repo).1.updated = true ∧
    Event.git GitStep.commit ∉ (Update env cfg repo).2 ∧
    Event.git GitStep.push ∉ (Update env cfg repo).2 := by
  have hcp := commitAndPush_noop env.git h1 h2 h3 h4
  have hg2 : (commitAndPush env.git).2 = Except.ok () := by rw [hcp]
  have hupd : Update env cfg repo =
      ((updateBody env cfg repo).1, (updateBody env cfg repo).2 ++ [Event.removeDir tmpDir]) := by
    simp [Update, hmk]
  rw [hupd, updateBody_eq env cfg repo hclone hbranch]
  refine ⟨hg2, ?_⟩
  rcases hc : cfg.createPR with _ | _
  · rw [if_neg (by simp [hc]), updateFromPlugins_push env cfg _ _ fs hplug hdry hg2 hc]
    refine ⟨by simp, by simp [emptyResult], by simp, ?_, ?_⟩ <;>
    · intro hs
      simp only [List.mem_append] at hs
      rcases hs with ((hs | hs) | hs) | hs
      · simp at hs
      · obtain ⟨n, hn⟩ := runPlugins_events env cfg _ _ hs
        exact Event.noConfusion hn
      · rw [hcp] at hs
        simp at hs
      · simp at hs
  · obtain ⟨num, url, hpc⟩ : ∃ num url, env.createPR = Except.ok (num, url) := by
      rcases hpe : env.createPR with e | ⟨num, url⟩
      · exact absurd hpe (hpr hc e)
      · exact ⟨num, url, rfl⟩
    rw [if_pos (by simp [hc]), updateFromPlugins_pr env cfg _ _ fs num url hplug hdry hg2 hc hpc]
    refine ⟨by simp, by simp [emptyResult], by simp, ?_, ?_⟩ <;>
    · intro hs
      simp only [List.mem_append] at hs
      rcases hs with (((hs | hs) | hs) | hs) | hs
      · simp at hs
      · obtain ⟨n, hn⟩ := runPlugins_events env cfg _ _ hs
        exact Event.noConfusion hn
      · rw [hcp] at hs
        simp at hs
      · simp at hs
      · simp at hs

/-- C4 witness: the amended no-op behavior at the concrete
counterexample environment. -/
theorem claim_C4_witness :
    (commitAndPush envNpmChanged.git).2 = Except.ok () ∧
    (Update envNpmChanged cfgDirect repoNpm).1.success = true ∧
    (Update envNpmChanged cfgDirect repoNpm).1.error = none ∧
    (Update envNpmChanged cfgDirect repoNpm).1.updated = true ∧
    Event.git GitStep.commit ∉ (Update envNpmChanged cfgDirect repoNpm).2 ∧
    Event.git GitStep.push ∉ (Update envNpmChanged cfgDirect repoNpm).2 :=
  claim_C4 envNpmChanged cfgDirect repoNpm "/tmp/updati" ["package-lock.json"]
    rfl rfl (by intro h; exact absurd h (by decide)) rfl rfl rfl rfl rfl rfl
    (by intro h; exact absurd h (by decide))

/-! ## C5: dry-run with a real change -/

/-- C5 counterexample: in dry-run pull-request mode (the default mode
with the dry-run flag) a local branch-creation call is recorded before
the plugins run, so the claim that no branch call is recorded fails. -/
theorem claim_C5_counterexample :
    cfgDry.dryRun = true ∧
    (Update envNpmChanged cfgDry repoNpm).1.success = true ∧
    (Update envNpmChanged cfgDry repoNpm).1.updated = true ∧
    Event.branch ∈ (Update envNpmChanged cfgDry repoNpm).2 := by
  refine ⟨rfl, rfl, rfl, ?_⟩
  decide

/-- C5 amended: in dry-run mode with a real change, Update returns a
successful Outcome with changed true and performs no git commit/push
invocation and no pull-request call; a local branch creation in the
temporary working copy is recorded exactly in pull-request mode, and no
remote mutation occurs. -/
theorem claim_C5 (env : UpdateEnv) (cfg : Config) (repo : Repository) (tmpDir : String)
    (fs : List String)
    (hmk : env.mkdirTemp = Except.ok tmpDir)
    (hclone : env.cloneErr = none)
    (hbranch : cfg.createPR = true → env.branchErr = none)
    (hplug : (runPlugins env cfg repo).2 = Except.ok (true, fs))
    (hdry : cfg.dryRun = true) :
    (Update env cfg repo).1.success = true ∧
    (Update env cfg repo).1.updated = true ∧
    (Update env cfg repo).1.error = none ∧
    (∀ s, Event.git s ∉ (Update env cfg repo).2) ∧
    Event.pullRequest ∉ (Update env cfg repo).2 ∧
    (Event.branch ∈ (Update env cfg repo).2 ↔ cfg.createPR = true) := by
  have hupd : Update env cfg repo =
      ((updateBody env cfg repo).1, (updateBody env cfg repo).2 ++ [Event.removeDir tmpDir]) := by
    simp [Update, hmk]
  rw [hupd, updateBody_eq env cfg repo hclone hbranch,
    updateFromPlugins_dry env cfg _ _ fs hplug hdry]
  refine ⟨by simp, by simp, by simp [emptyResult], ?_, ?_, ?_⟩
  · intro s hs
    simp only [List.mem_append] at hs
    rcases hs with (hs | hs) | hs
    · rcases hc : cfg.createPR <;> rw [hc] at hs <;> simp at hs
    · obtain ⟨n, hn⟩ := runPlugins_events env cfg _ _ hs
      exact Event.noConfusion hn
    · simp at hs
  · intro hs
    simp only [List.mem_append] at hs
    rcases hs with (hs | hs) | hs
    · rcases hc : cfg.createPR <;> rw [hc] at hs <;> simp at hs
    · obtain ⟨n, hn⟩ := runPlugins_events env cfg _ _ hs
      exact Event.noConfusion hn
    · simp at hs
  · rcases hc : cfg.createPR with _ | _
    · rw [if_neg (by simp [hc])]
      constructor
      · intro hs
        exfalso
        simp only [List.mem_append] at hs
        rcases hs with (hs | hs) | hs
        · simp at hs
        · obtain ⟨n, hn⟩ := runPlugins_events env cfg _ _ hs
          exact Event.noConfusion hn
        · simp at hs
      · intro h
        exact absurd h (by simp [hc])
    · rw [if_pos (by simp [hc])]
      simp [hc]

/-- C5 witness: at the concrete dry-run pull-request environment the
run succeeds with changed true, performs no git or pull-request call,
and records the local branch creation. -/
theorem claim_C5_witness :
    (Update envNpmChanged cfgDry repoNpm).1.success = true ∧
    (Update envNpmChanged cfgDry repoNpm).1.updated = true ∧
    (Update envNpmChanged cfgDry repoNpm).1.error = none ∧
    Event.git GitStep.commit ∉ (Update envNpmChanged cfgDry repoNpm).2 ∧
    Event.pullRequest ∉ (Update envNpmChanged cfgDry repoNpm).2 ∧
    Event.branch ∈ (Update envNpmChanged cfgDry repoNpm).2 := by
  have h := claim_C5 envNpmChanged cfgDry repoNpm "/tmp/updati" ["package-lock.json"]
    rfl rfl (fun _ => rfl) rfl rfl
  exact ⟨h.1, h.2.1, h.2.2.1, h.2.2.2.1 GitStep.commit, h.2.2.2.2.1, h.2.2.2.2.2.mpr rfl⟩

/-! ## C6: pull-request reconciliation never duplicates -/

/-- C6: when an open pull request for the exact head/base pair exists,
reconciliation performs no create call, edits that pull request, and
(when the edit succeeds) returns it with the title and body replaced in
place; when none exists, exactly one create call is performed.  One
successful reconciliation step keeps the number of open pull requests
for the pair at most one, so repeated runs never accumulate
duplicates. -/
theorem claim_C6 (env : PREnv) (openPRs : List PullRequest) (title body : String)
    (labels : List String) (hlist : env.listErr = none) :
    (∀ pr rest, openPRs = pr :: rest →
      ((createPullRequest env openPRs title body labels).1.count PRCall.create = 0 ∧
       PRCall.edit pr.number ∈ (createPullRequest env openPRs title body labels).1 ∧
       (env.editErr = none →
         (createPullRequest env openPRs title body labels).2 =
           Except.ok { pr with title := title, body := body }))) ∧
    (openPRs = [] →
      (createPullRequest env openPRs title body labels).1.count PRCall.create = 1) ∧
    (openPRs.length ≤ 1 → (prStateAfter env openPRs title body).length ≤ 1) := by
  refine ⟨?_, ?_, ?_⟩
  · intro pr rest hopen
    subst hopen
    rcases he : env.editErr with _ | e
    · refine ⟨?_, by simp [createPullRequest, hlist, he], ?_⟩
      · rw [List.count_eq_zero]
        simp [createPullRequest, hlist, he]
      · intro _
        simp [createPullRequest, hlist, he]
    · refine ⟨?_, by simp [createPullRequest, hlist, he], ?_⟩
      · rw [List.count_eq_zero]
        simp [createPullRequest, hlist, he]
      · intro h
        exact Option.noConfusion h
  · intro hopen
    subst hopen
    rcases hce : env.createErr with _ | e
    · rcases hl : labels with _ | ⟨l, ls⟩ <;> simp [createPullRequest, hlist, hce]
    · simp [createPullRequest, hlist, hce]
  · intro hlen
    rcases openPRs with _ | ⟨pr, rest⟩
    · simp [prStateAfter]
    · simp only [prStateAfter, List.length_cons] at hlen ⊢
      omega

/-- C6 witness: reconciling against one existing open pull request
edits it in place with no create call, and the open set stays at one. -/
theorem claim_C6_witness :
    (createPullRequest {} [prOne] "nt" "nb" []).1.count PRCall.create = 0 ∧
    PRCall.edit prOne.number ∈ (createPullRequest {} [prOne] "nt" "nb" []).1 ∧
    (createPullRequest {} [prOne] "nt" "nb" []).2 =
      Except.ok { prOne with title := "nt", body := "nb" } ∧
    (prStateAfter {} [prOne] "nt" "nb").length ≤ 1 := by
  have h := claim_C6 {} [prOne] "nt" "nb" [] rfl
  have h1 := h.1 prOne [] rfl
  exact ⟨h1.1, h1.2.1, h1.2.2 rfl, h.2.2 (by decide)⟩

/-! ## C2: fingerprint equality and change detection -/

/-- Value of a decimal digit character. -/
theorem digit_toNat (r : Nat) (h : r < 10) : (Char.ofNat (48 + r)).toNat = 48 + r := by
  interval_cases r <;> rfl

/-- Value of a lowercase hex digit character. -/
theorem hexDigitChar_toNat (r : Nat) (h : r < 16) :
    (hexDigitChar r).toNat = if r < 10 then 48 + r else 87 + r := by
  interval_cases r <;> rfl

/-- Hex digit characters sit at or above code 48. -/
theorem hexDigitChar_ge (r : Nat) (h : r < 16) : 48 ≤ (hexDigitChar r).toNat := by
  rw [hexDigitChar_toNat r h]
  split_ifs <;> omega

/-- A character with code at least 48 is not the dash separator. -/
theorem ne_dash_of_ge (c : Char) (h : 48 ≤ c.toNat) : c ≠ Char.ofNat 45 := by
  intro hc
  rw [hc] at h
  exact absurd h (by decide)

/-- Parsing back the digits produced by the decimal encoder recovers
the encoded number. -/
theorem decVal_decCharsAux : ∀ (fuel n : Nat), n ≤ fuel → decVal (decCharsAux fuel n) = n := by
  intro fuel
  induction fuel with
  | zero =>
    intro n hn
    interval_cases n
    rfl
  | succ fuel ih =>
    intro n hn
    rcases Nat.eq_zero_or_pos n with h0 | hp
    · rw [decCharsAux, if_pos h0, h0]
      rfl
    · have hlt : n / 10 ≤ fuel := by
        have := Nat.div_lt_self hp (by norm_num : (1 : Nat) < 10)
        omega
      have hdvl : decVal (decCharsAux fuel (n / 10) ++ [Char.ofNat (48 + n % 10)]) =
          10 * decVal (decCharsAux fuel (n / 10)) +
            ((Char.ofNat (48 + n % 10)).toNat - 48) := by
        simp [decVal, List.foldl_append]
      rw [decCharsAux, if_neg (by omega), hdvl, ih (n / 10) hlt,
        digit_toNat (n % 10) (by omega)]
      omega

/-- The decimal encoder is injective. -/
theorem decChars_inj (n m : Nat) (h : decChars n = decChars m) : n = m := by
  have hn := decVal_decCharsAux n n (Nat.le_refl n)
  have hm := decVal_decCharsAux m m (Nat.le_refl m)
  rw [← hn, ← hm]
  unfold decChars at h
  rw [h]

/-- Every character the decimal encoder emits is a decimal digit
character. -/
theorem decCharsAux_digits : ∀ (fuel n : Nat) (c : Char), c ∈ decCharsAux fuel n →
    48 ≤ c.toNat ∧ c.toNat ≤ 57 := by
  intro fuel
  induction fuel with
  | zero =>
    intro n c h
    exact absurd h (by simp [decCharsAux])
  | succ fuel ih =>
    intro n c h
    rw [decCharsAux] at h
    by_cases h0 : n = 0
    · rw [if_pos h0] at h
      exact absurd h (by simp)
    · rw [if_neg h0] at h
      rcases List.mem_append.mp h with h1 | h1
      · exact ih (n / 10) c h1
      · rcases List.mem_singleton.mp h1 with rfl
        rw [digit_toNat (n % 10) (by omega)]
        omega

/-- The two-digit hex encoding of a byte is injective. -/
theorem hexByte_inj (b b' : Nat) (hb : b < 256) (hb' : b' < 256)
    (h : hexByte b = hexByte b') : b = b' := by
  simp only [hexByte, List.cons.injEq, and_true] at h
  have d1 := congrArg Char.toNat h.1
  have d2 := congrArg Char.toNat h.2
  rw [hexDigitChar_toNat _ (by omega), hexDigitChar_toNat _ (by omega)] at d1
  rw [hexDigitChar_toNat _ (by omega), hexDigitChar_toNat _ (by omega)] at d2
  split_ifs at d1 d2 <;> omega

/-- The hex encoding of a byte list is injective on byte lists. -/
theorem hexChars_inj : ∀ (bs bs' : List Nat), (∀ b ∈ bs, b < 256) → (∀ b ∈ bs', b < 256) →
    hexChars bs = hexChars bs' → bs = bs' := by
  intro bs
  induction bs with
  | nil =>
    intro bs' _ _ h
    rcases bs' with _ | ⟨b', t'⟩
    · rfl
    · exact absurd h (by simp [hexChars, hexByte])
  | cons b t ih =>
    intro bs' hb hb' h
    rcases bs' with _ | ⟨b', t'⟩
    · exact absurd h (by simp [hexChars, hexByte])
    · rw [hexChars, hexChars] at h
      obtain ⟨h1, h2⟩ := List.append_inj h (by simp [hexByte])
      have hbb := hexByte_inj b b' (hb b (by simp)) (hb' b' (by simp)) h1
      subst hbb
      rw [ih t' (fun x hx => hb x (by simp [hx])) (fun x hx => hb' x (by simp [hx])) h2]

/-- The hex encoding of a byte list never contains the dash
separator. -/
theorem hexChars_ne_dash : ∀ (bs : List Nat), (∀ b ∈ bs, b < 256) →
    ∀ c ∈ hexChars bs, c ≠ Char.ofNat 45 := by
  intro bs
  induction bs with
  | nil =>
    intro _ c h
    exact absurd h (by simp [hexChars])
  | cons b t ih =>
    intro hb c h
    rw [hexChars] at h
    have hb0 : b < 256 := hb b (by simp)
    rcases List.mem_append.mp h with h1 | h1
    · rcases (by simpa [hexByte] using h1 :
        c = hexDigitChar (b / 16) ∨ c = hexDigitChar (b % 16)) with rfl | rfl
      · exact ne_dash_of_ge _ (hexDigitChar_ge _ (by omega))
      · exact ne_dash_of_ge _ (hexDigitChar_ge _ (by omega))
    · exact ih (fun x hx => hb x (by simp [hx])) c h1

/-- Splitting at the first dash: two dash-separated strings with
dash-free heads agree componentwise. -/
theorem append_dash_inj : ∀ (as bs cs ds : List Char),
    (∀ c ∈ as, c ≠ Char.ofNat 45) → (∀ c ∈ bs, c ≠ Char.ofNat 45) →
    as ++ Char.ofNat 45 :: cs = bs ++ Char.ofNat 45 :: ds → as = bs ∧ cs = ds := by
  intro as
  induction as with
  | nil =>
    intro bs cs ds _ hbs h
    rcases bs with _ | ⟨b, bs'⟩
    · simp only [List.nil_append] at h
      injection h with _ h2
      exact ⟨rfl, h2⟩
    · simp only [List.nil_append, List.cons_append] at h
      injection h with h1 _
      exact absurd h1.symm (hbs b (by simp))
  | cons a as' ih =>
    intro bs cs ds has hbs h
    rcases bs with _ | ⟨b, bs'⟩
    · simp only [List.cons_append, List.nil_append] at h
      injection h with h1 _
      exact absurd h1 (has a (by simp))
    · simp only [List.cons_append] at h
      injection h with h1 h2
      obtain ⟨h3, h4⟩ := ih bs' cs ds (fun c hc => has c (by simp [hc]))
        (fun c hc => hbs c (by simp [hc])) h2
      exact ⟨by rw [h1, h3], h4⟩

/-- The character content of the fileHash format determines the length,
the sampled prefix and the sampled suffix of the hashed contents. -/
theorem fileHashChars_inj (d d' : List Nat) (hb : ∀ b ∈ d, b < 256)
    (hb' : ∀ b ∈ d', b < 256) (h : fileHashChars d = fileHashChars d') :
    d.length = d'.length ∧
    d.take (min 10 d.length) = d'.take (min 10 d'.length) ∧
    d.drop (d.length - 10) = d'.drop (d'.length - 10) := by
  unfold fileHashChars at h
  obtain ⟨h1, h2⟩ := append_dash_inj _ _ _ _
    (fun c hc => ne_dash_of_ge c (decCharsAux_digits _ _ c hc).1)
    (fun c hc => ne_dash_of_ge c (decCharsAux_digits _ _ c hc).1) h
  have hlen := decChars_inj _ _ h1
  obtain ⟨h3, h4⟩ := append_dash_inj _ _ _ _
    (hexChars_ne_dash _ (fun x hx => hb x (List.take_subset _ _ hx)))
    (hexChars_ne_dash _ (fun x hx => hb' x (List.take_subset _ _ hx))) h2
  refine ⟨hlen, ?_, ?_⟩
  · exact hexChars_inj _ _ (fun x hx => hb x (List.take_subset _ _ hx))
      (fun x hx => hb' x (List.take_subset _ _ hx)) h3
  · exact hexChars_inj _ _ (fun x hx => hb x (List.drop_subset _ _ hx))
      (fun x hx => hb' x (List.drop_subset _ _ hx)) h4

/-- Character content of the "empty" sentinel. -/
theorem emptyWord_data : ("empty" : String).data = ['e', 'm', 'p', 't', 'y'] := by decide

/-- The formatted hash of a nonempty file never spells the "empty"
sentinel: its first character is a digit or a dash, never the letter
at the head of the sentinel. -/
theorem fileHashChars_ne_empty_list (d : List Nat) :
    fileHashChars d ≠ ['e', 'm', 'p', 't', 'y'] := by
  intro h
  unfold fileHashChars at h
  rcases hdc : decChars d.length with _ | ⟨c, cs⟩ <;> rw [hdc] at h
  · have hhead : Char.ofNat 45 = 'e' := by
      simpa using congrArg List.headI h
    exact absurd hhead (by decide)
  · have hhead : c = 'e' := by
      simpa using congrArg List.headI h
    have hc : c ∈ decCharsAux d.length d.length := by
      unfold decChars at hdc
      rw [hdc]
      simp
    have hle := (decCharsAux_digits d.length d.length c hc).2
    rw [hhead] at hle
    exact absurd hle (by decide)

set_option maxRecDepth 10000 in
/-- C2 counterexample: two different lockfile-sized contents (1000
bytes) that differ only in a middle byte receive the same fingerprint,
so a modification does not always change the fingerprint. -/
theorem claim_C2_counterexample :
    (List.replicate 1000 0 : List Nat) ≠
      List.replicate 500 0 ++ 7 :: List.replicate 499 0 ∧
    fileHash (List.replicate 1000 0) =
      fileHash (List.replicate 500 0 ++ 7 :: List.replicate 499 0) := by
  constructor
  · decide
  · decide

/-- C2 amended: fingerprinting is deterministic (unchanged contents
give equal fingerprints), and a modification changes the fingerprint
whenever it changes what the fingerprint samples: the length, the
first min(10,length) bytes, or the last 10 bytes; a modification
confined to the remaining middle bytes can leave it unchanged. -/
theorem claim_C2 :
    (∀ data : List Nat, fileHash data = fileHash data) ∧
    (∀ d d' : List Nat, (∀ b ∈ d, b < 256) → (∀ b ∈ d', b < 256) →
      (d.length ≠ d'.length ∨ d.take (min 10 d.length) ≠ d'.take (min 10 d'.length) ∨
        d.drop (d.length - 10) ≠ d'.drop (d'.length - 10)) →
      fileHash d ≠ fileHash d') := by
  refine ⟨fun _ => rfl, ?_⟩
  intro d d' hb hb' hdiff heq
  unfold fileHash at heq
  by_cases h0 : d.length = 0 <;> by_cases h0' : d'.length = 0
  · have hd := List.length_eq_zero.mp h0
    have hd' := List.length_eq_zero.mp h0'
    subst hd
    subst hd'
    rcases hdiff with h | h | h <;> exact h rfl
  · rw [if_pos h0, if_neg h0'] at heq
    have hch : fileHashChars d' = ['e', 'm', 'p', 't', 'y'] := by
      have := congrArg String.data heq
      simpa [emptyWord_data] using this.symm
    exact fileHashChars_ne_empty_list d' hch
  · rw [if_neg h0, if_pos h0'] at heq
    have hch : fileHashChars d = ['e', 'm', 'p', 't', 'y'] := by
      have := congrArg String.data heq
      simpa [emptyWord_data] using this
    exact fileHashChars_ne_empty_list d hch
  · rw [if_neg h0, if_neg h0'] at heq
    have hch : fileHashChars d = fileHashChars d' := by
      have := congrArg String.data heq
      simpa using this
    obtain ⟨hl, ht, hdr⟩ := fileHashChars_inj d d' hb hb' hch
    rcases hdiff with h | h | h
    · exact h hl
    · exact h ht
    · exact h hdr

/-- C2 witness: contents of different lengths receive different
fingerprints. -/
theorem claim_C2_witness : fileHash [0] ≠ fileHash [0, 0] :=
  claim_C2.2 [0] [0, 0] (by decide) (by decide) (Or.inl (by decide))

end Updati
